import Mathlib

/-!
Shallow embedding of the go-eloquent query builder and model layer
(src/relationships.go, src/model.go), with theorems checking the
natural-language specification against the code.

Conventions of the embedding:
* Go `interface{}` values bound as SQL arguments are modelled by `GoValue`.
* Go maps `map[string]interface{}` are modelled by association lists
  (`List (String × GoValue)`); Go map iteration order is the list order.
* Go methods that mutate the receiver and return it are modelled as pure
  functions returning the new value.
* Go `panic` is modelled by `PanicOr`; Go `error` return values by `ErrOr`.
* Database I/O is modelled by recording the statements issued (`DbOp`);
  the PostgreSQL `?`→`$n` placeholder rewrite and the `connection == nil`
  guards are orthogonal to every claim and are not modelled.
-/

namespace Eloquent

/-- Go `interface{}` values that flow through the builder and model layer. -/
inductive GoValue where
  | VNull
  | VStr (s : String)
  | VInt (n : Int)
  | VBool (b : Bool)
  | VTime (t : Nat)
deriving DecidableEq, Repr

/-- A database row / Go `map[string]interface{}`, as an association list. -/
abbrev Row := List (String × GoValue)

/-- Go map read `m[k]`: the zero value `nil` when the key is absent. -/
def mapGet (m : Row) (k : String) : GoValue :=
  match m.find? (fun kv => kv.1 == k) with
  | some kv => kv.2
  | none => GoValue.VNull

/-- Go map membership test `_, ok := m[k]`. -/
def mapMem (m : Row) (k : String) : Bool :=
  m.any (fun kv => kv.1 == k)

/-- Go map write `m[k] = v`: replace the entry if present, else append. -/
def mapSet (m : Row) (k : String) (v : GoValue) : Row :=
  if mapMem m k then m.map (fun kv => if kv.1 == k then (kv.1, v) else kv)
  else m ++ [(k, v)]

/-- Go `strings.Join(elems, sep)`. -/
def goJoin (sep : String) : List String → String
  | [] => ""
  | [a] => a
  | a :: b :: rest => a ++ sep ++ goJoin sep (b :: rest)

/-- Concatenation of a list of strings (a Go loop of `WriteString` calls). -/
def concatStrs : List String → String
  | [] => ""
  | a :: rest => a ++ concatStrs rest

/-- ASCII upper-casing of one character, as Go `strings.ToUpper` does on the
ASCII keyword/identifier strings this repository feeds it. -/
def goUpperChar (c : Char) : Char :=
  if 97 ≤ c.toNat ∧ c.toNat ≤ 122 then Char.ofNat (c.toNat - 32) else c

/-- Go `strings.ToUpper` (ASCII range). -/
def goToUpper (s : String) : String := String.mk (s.data.map goUpperChar)

/-- ASCII lower-casing of one character (Go `unicode.ToLower` on ASCII). -/
def goLowerChar (c : Char) : Char :=
  if 65 ≤ c.toNat ∧ c.toNat ≤ 90 then Char.ofNat (c.toNat + 32) else c

/-- Helper loop of `toSnakeCase` (model.go): underscore before every
upper-case rune except at index 0, then lower-case the rune. -/
def snakeAux : Bool → List Char → List Char
  | _, [] => []
  | isFirst, c :: rest =>
      (if ¬ isFirst ∧ (65 ≤ c.toNat ∧ c.toNat ≤ 90) then ['_', goLowerChar c]
       else [goLowerChar c]) ++ snakeAux false rest

/-- `toSnakeCase` (model.go): CamelCase to snake_case. -/
def toSnakeCase (str : String) : String := String.mk (snakeAux true str.data)

/-- Go `panic` propagation: either a value or a panic message. -/
inductive PanicOr (α : Type) where
  | ok (a : α)
  | panicked (msg : String)
deriving DecidableEq, Repr

/-- Go `error` return values: either a value or an error message. -/
inductive ErrOr (α : Type) where
  | ok (a : α)
  | err (msg : String)
deriving DecidableEq, Repr

/-- `WhereClause` (relationships.go).  The Go field `Type` is renamed `typ`
(`Type` is reserved in Lean); it ranges over
"basic" | "in" | "null" | "between" | "exists" | "raw". -/
structure WhereClause where
  Column : String
  Operator : String
  Value : GoValue
  Boolean : String
  typ : String
  Values : List GoValue
deriving DecidableEq, Repr

/-- `OrderClause` (relationships.go). -/
structure OrderClause where
  Column : String
  Direction : String
deriving DecidableEq, Repr

/-- `JoinClause` (relationships.go); Go field `Type` renamed `typ`. -/
structure JoinClause where
  Table : String
  First : String
  Operator : String
  Second : String
  typ : String
deriving DecidableEq, Repr

/-- `HavingClause` (relationships.go). -/
structure HavingClause where
  Column : String
  Operator : String
  Value : GoValue
  Boolean : String
deriving DecidableEq, Repr

/-- `QueryBuilder` (relationships.go).  The `connection` handle and the
`eagerLoad` map of callbacks carry no clause state and are not modelled. -/
structure QueryBuilder where
  table : String
  wheres : List WhereClause
  orders : List OrderClause
  joins : List JoinClause
  groups : List String
  havings : List HavingClause
  limitValue : Option Int
  offsetValue : Option Int
  columns : List String
  distinct : Bool
deriving DecidableEq, Repr

/-- `NewQueryBuilder` (relationships.go): fresh builder, columns default `*`. -/
def NewQueryBuilder : QueryBuilder :=
  { table := "", wheres := [], orders := [], joins := [], groups := [],
    havings := [], limitValue := none, offsetValue := none,
    columns := ["*"], distinct := false }

/-- `Table` (relationships.go). -/
def QueryBuilder.Table (qb : QueryBuilder) (table : String) : QueryBuilder :=
  { qb with table := table }

/-- `Select` (relationships.go). -/
def QueryBuilder.Select (qb : QueryBuilder) (columns : List String) : QueryBuilder :=
  { qb with columns := columns }

/-- `Distinct` (relationships.go). -/
def QueryBuilder.Distinct (qb : QueryBuilder) : QueryBuilder :=
  { qb with distinct := true }

/-- `addWhere` (relationships.go): arity dispatch over the variadic args.
One arg: operator defaults to `=`.  Two args: the first is type-asserted to
be a string operator (a non-string first arg makes the assertion panic).
Any other arity panics with the fixed message. -/
def QueryBuilder.addWhere (qb : QueryBuilder) (column boolean : String)
    (args : List GoValue) : PanicOr QueryBuilder :=
  match args with
  | [a0] =>
      .ok { qb with wheres := qb.wheres ++
        [{ Column := column, Operator := "=", Value := a0,
           Boolean := boolean, typ := "basic", Values := [] }] }
  | [a0, a1] =>
      match a0 with
      | GoValue.VStr op =>
          .ok { qb with wheres := qb.wheres ++
            [{ Column := column, Operator := op, Value := a1,
               Boolean := boolean, typ := "basic", Values := [] }] }
      | _ => .panicked "interface conversion: args[0] is not a string"
  | _ => .panicked "Invalid number of arguments for where clause"

/-- `Where` (relationships.go). -/
def QueryBuilder.Where (qb : QueryBuilder) (column : String)
    (args : List GoValue) : PanicOr QueryBuilder :=
  qb.addWhere column "and" args

/-- `OrWhere` (relationships.go). -/
def QueryBuilder.OrWhere (qb : QueryBuilder) (column : String)
    (args : List GoValue) : PanicOr QueryBuilder :=
  qb.addWhere column "or" args

/-- `WhereIn` (relationships.go). -/
def QueryBuilder.WhereIn (qb : QueryBuilder) (column : String)
    (values : List GoValue) : QueryBuilder :=
  { qb with wheres := qb.wheres ++
    [{ Column := column, Operator := "", Value := GoValue.VNull,
       Boolean := "and", typ := "in", Values := values }] }

/-- `WhereNotIn` (relationships.go). -/
def QueryBuilder.WhereNotIn (qb : QueryBuilder) (column : String)
    (values : List GoValue) : QueryBuilder :=
  { qb with wheres := qb.wheres ++
    [{ Column := column, Operator := "not in", Value := GoValue.VNull,
       Boolean := "and", typ := "in", Values := values }] }

/-- `WhereNull` (relationships.go). -/
def QueryBuilder.WhereNull (qb : QueryBuilder) (column : String) : QueryBuilder :=
  { qb with wheres := qb.wheres ++
    [{ Column := column, Operator := "", Value := GoValue.VNull,
       Boolean := "and", typ := "null", Values := [] }] }

/-- `WhereNotNull` (relationships.go). -/
def QueryBuilder.WhereNotNull (qb : QueryBuilder) (column : String) : QueryBuilder :=
  { qb with wheres := qb.wheres ++
    [{ Column := column, Operator := "not null", Value := GoValue.VNull,
       Boolean := "and", typ := "null", Values := [] }] }

/-- `WhereBetween` (relationships.go): stores `Values = [min, max]`. -/
def QueryBuilder.WhereBetween (qb : QueryBuilder) (column : String)
    (min max : GoValue) : QueryBuilder :=
  { qb with wheres := qb.wheres ++
    [{ Column := column, Operator := "", Value := GoValue.VNull,
       Boolean := "and", typ := "between", Values := [min, max] }] }

/-- `Join` (relationships.go): inner join. -/
def QueryBuilder.Join (qb : QueryBuilder) (table first op second : String) : QueryBuilder :=
  { qb with joins := qb.joins ++
    [{ Table := table, First := first, Operator := op, Second := second, typ := "inner" }] }

/-- `LeftJoin` (relationships.go). -/
def QueryBuilder.LeftJoin (qb : QueryBuilder) (table first op second : String) : QueryBuilder :=
  { qb with joins := qb.joins ++
    [{ Table := table, First := first, Operator := op, Second := second, typ := "left" }] }

/-- `RightJoin` (relationships.go). -/
def QueryBuilder.RightJoin (qb : QueryBuilder) (table first op second : String) : QueryBuilder :=
  { qb with joins := qb.joins ++
    [{ Table := table, First := first, Operator := op, Second := second, typ := "right" }] }

/-- `CrossJoin` (relationships.go). -/
def QueryBuilder.CrossJoin (qb : QueryBuilder) (table : String) : QueryBuilder :=
  { qb with joins := qb.joins ++
    [{ Table := table, First := "", Operator := "", Second := "", typ := "cross" }] }

/-- `OrderBy` (relationships.go): empty direction defaults to `asc`,
direction is lower-cased on storage. -/
def QueryBuilder.OrderBy (qb : QueryBuilder) (column direction : String) : QueryBuilder :=
  let dir := if direction = "" then "asc" else direction
  { qb with orders := qb.orders ++
    [{ Column := column, Direction := String.mk (dir.data.map goLowerChar) }] }

/-- `OrderByDesc` (relationships.go). -/
def QueryBuilder.OrderByDesc (qb : QueryBuilder) (column : String) : QueryBuilder :=
  qb.OrderBy column "desc"

/-- `GroupBy` (relationships.go). -/
def QueryBuilder.GroupBy (qb : QueryBuilder) (columns : List String) : QueryBuilder :=
  { qb with groups := qb.groups ++ columns }

/-- `Having` (relationships.go). -/
def QueryBuilder.Having (qb : QueryBuilder) (column op : String) (value : GoValue) : QueryBuilder :=
  { qb with havings := qb.havings ++
    [{ Column := column, Operator := op, Value := value, Boolean := "and" }] }

/-- `OrHaving` (relationships.go). -/
def QueryBuilder.OrHaving (qb : QueryBuilder) (column op : String) (value : GoValue) : QueryBuilder :=
  { qb with havings := qb.havings ++
    [{ Column := column, Operator := op, Value := value, Boolean := "or" }] }

/-- `Limit` (relationships.go). -/
def QueryBuilder.Limit (qb : QueryBuilder) (limit : Int) : QueryBuilder :=
  { qb with limitValue := some limit }

/-- `Offset` (relationships.go). -/
def QueryBuilder.Offset (qb : QueryBuilder) (offset : Int) : QueryBuilder :=
  { qb with offsetValue := some offset }

/-- `clone` (relationships.go): copies every clause field (this embedding's
lists are immutable, so the deep copies of the Go code are plain field
copies here). -/
def QueryBuilder.clone (qb : QueryBuilder) : QueryBuilder :=
  { table := qb.table, wheres := qb.wheres, orders := qb.orders,
    joins := qb.joins, groups := qb.groups, havings := qb.havings,
    limitValue := qb.limitValue, offsetValue := qb.offsetValue,
    columns := qb.columns, distinct := qb.distinct }

/-! ## ToSQL (relationships.go), split into the sections the Go code writes
in sequence.  Argument emission order is: where args, having args, limit,
offset — exactly the order the Go loop appends to `args`. -/

/-- One where clause's SQL fragment and bound arguments (the body of the
`switch where.Type` in `ToSQL`).  An unrecognized kind writes nothing.
The `between` branch indexes `Values[0]`/`Values[1]` as the Go code does;
builder-made between clauses always carry exactly two values. -/
def compileWhere (w : WhereClause) : String × List GoValue :=
  if w.typ = "basic" then
    (w.Column ++ " " ++ w.Operator ++ " ?", [w.Value])
  else if w.typ = "in" then
    (w.Column ++ (if w.Operator = "not in" then " NOT IN (" else " IN (") ++
       goJoin ", " (w.Values.map (fun _ => "?")) ++ ")", w.Values)
  else if w.typ = "null" then
    (w.Column ++ (if w.Operator = "not null" then " IS NOT NULL" else " IS NULL"), [])
  else if w.typ = "between" then
    (w.Column ++ " BETWEEN ? AND ?",
     [w.Values.getD 0 GoValue.VNull, w.Values.getD 1 GoValue.VNull])
  else ("", [])

/-- Where clauses after the first: each is prefixed by its upper-cased
boolean connector. -/
def compileWheresRest : List WhereClause → String × List GoValue
  | [] => ("", [])
  | w :: rest =>
      let swa := compileWhere w
      let rst := compileWheresRest rest
      (" " ++ goToUpper w.Boolean ++ " " ++ swa.1 ++ rst.1, swa.2 ++ rst.2)

/-- The whole where chain: first clause without connector (`i > 0` guard in
the Go loop), then the rest. -/
def compileWheres : List WhereClause → String × List GoValue
  | [] => ("", [])
  | w :: rest =>
      let swa := compileWhere w
      let rst := compileWheresRest rest
      (swa.1 ++ rst.1, swa.2 ++ rst.2)

/-- One join clause's SQL (no bound arguments). -/
def compileJoin (j : JoinClause) : String :=
  " " ++ goToUpper j.typ ++ " JOIN " ++ j.Table ++
    (if j.typ ≠ "cross" then " ON " ++ j.First ++ " " ++ j.Operator ++ " " ++ j.Second
     else "")

/-- One having clause's SQL fragment (binds its value). -/
def compileHaving (h : HavingClause) : String := h.Column ++ " " ++ h.Operator ++ " ?"

/-- Having clauses after the first, each prefixed by its connector. -/
def compileHavingsRest : List HavingClause → String × List GoValue
  | [] => ("", [])
  | h :: rest =>
      let rst := compileHavingsRest rest
      (" " ++ goToUpper h.Boolean ++ " " ++ compileHaving h ++ rst.1, h.Value :: rst.2)

/-- The whole having chain. -/
def compileHavings : List HavingClause → String × List GoValue
  | [] => ("", [])
  | h :: rest =>
      let rst := compileHavingsRest rest
      (compileHaving h ++ rst.1, h.Value :: rst.2)

/-- SELECT section. -/
def selectPart (qb : QueryBuilder) : String :=
  "SELECT " ++ (if qb.distinct then "DISTINCT " else "") ++ goJoin ", " qb.columns

/-- FROM section. -/
def fromPart (qb : QueryBuilder) : String := " FROM " ++ qb.table

/-- JOIN section. -/
def joinsPart (qb : QueryBuilder) : String := concatStrs (qb.joins.map compileJoin)

/-- WHERE section. -/
def wherePart (qb : QueryBuilder) : String :=
  if qb.wheres.isEmpty then "" else " WHERE " ++ (compileWheres qb.wheres).1

/-- GROUP BY section. -/
def groupPart (qb : QueryBuilder) : String :=
  if qb.groups.isEmpty then "" else " GROUP BY " ++ goJoin ", " qb.groups

/-- HAVING section. -/
def havingPart (qb : QueryBuilder) : String :=
  if qb.havings.isEmpty then "" else " HAVING " ++ (compileHavings qb.havings).1

/-- ORDER BY section. -/
def orderPart (qb : QueryBuilder) : String :=
  if qb.orders.isEmpty then ""
  else " ORDER BY " ++
    goJoin ", " (qb.orders.map (fun o => o.Column ++ " " ++ goToUpper o.Direction))

/-- LIMIT section. -/
def limitPart (qb : QueryBuilder) : String :=
  match qb.limitValue with | some _ => " LIMIT ?" | none => ""

/-- LIMIT bound argument. -/
def limitArgs (qb : QueryBuilder) : List GoValue :=
  match qb.limitValue with | some n => [GoValue.VInt n] | none => []

/-- OFFSET section. -/
def offsetPart (qb : QueryBuilder) : String :=
  match qb.offsetValue with | some _ => " OFFSET ?" | none => ""

/-- OFFSET bound argument. -/
def offsetArgs (qb : QueryBuilder) : List GoValue :=
  match qb.offsetValue with | some n => [GoValue.VInt n] | none => []

/-- `ToSQL` (relationships.go): renders the accumulated clauses into SQL
text and the positional argument list. -/
def QueryBuilder.ToSQL (qb : QueryBuilder) : String × List GoValue :=
  (selectPart qb ++ fromPart qb ++ joinsPart qb ++ wherePart qb ++ groupPart qb ++
     havingPart qb ++ orderPart qb ++ limitPart qb ++ offsetPart qb,
   (compileWheres qb.wheres).2 ++ (compileHavings qb.havings).2 ++
     limitArgs qb ++ offsetArgs qb)

/-! ## Execution methods (relationships.go).  The connection collaborator is
modelled as a function from compiled (sql, args) to the rows it returns or a
driver error. -/

/-- The `connection.Select` collaborator. -/
abbrev Conn := String → List GoValue → ErrOr (List Row)

/-- `Get` (relationships.go): compile and run the query. -/
def QueryBuilder.Get (qb : QueryBuilder) (conn : Conn) : ErrOr (List Row) :=
  let sa := qb.ToSQL
  conn sa.1 sa.2

/-- `First` (relationships.go): sets `Limit 1`, runs the query, propagates an
execution error unchanged, and turns an empty result into the error
"no records found". -/
def QueryBuilder.First (qb : QueryBuilder) (conn : Conn) : ErrOr Row :=
  let qb1 := qb.Limit 1
  match qb1.Get conn with
  | .err e => .err e
  | .ok results =>
      match results with
      | [] => .err "no records found"
      | r :: _ => .ok r

/-- `FirstOrFail` (relationships.go): any error from `First` — an execution
failure as much as a zero-row result — becomes "model not found". -/
def QueryBuilder.FirstOrFail (qb : QueryBuilder) (conn : Conn) : ErrOr Row :=
  match qb.First conn with
  | .err _ => .err "model not found"
  | .ok r => .ok r

/-- `Find` (relationships.go): `qb.Where("id", id).First()`. -/
def QueryBuilder.Find (qb : QueryBuilder) (conn : Conn) (id : GoValue) :
    PanicOr (ErrOr Row) :=
  match qb.Where "id" [id] with
  | .ok q => .ok (q.First conn)
  | .panicked msg => .panicked msg

/-- `FindOrFail` (relationships.go): any error from `Find` becomes
"model not found". -/
def QueryBuilder.FindOrFail (qb : QueryBuilder) (conn : Conn) (id : GoValue) :
    PanicOr (ErrOr Row) :=
  match qb.Find conn id with
  | .ok (.err _) => .ok (.err "model not found")
  | .ok (.ok r) => .ok (.ok r)
  | .panicked msg => .panicked msg

/-! ## Aggregate derivations (relationships.go).  Each aggregate clones the
builder and replaces the projected columns; only `Count` also clears
orders, limit and offset.  The functions below are the clone states the
aggregates execute `First` on (local variables `countQB`, `sumQB`, `avgQB`,
`maxQB`, `minQB` in the Go code). -/

/-- The clone `Count` builds: aggregate column, orders/limit/offset cleared. -/
def QueryBuilder.countQB (qb : QueryBuilder) (column : String) : QueryBuilder :=
  let c := qb.clone
  { c with
    columns := ["COUNT(" ++ column ++ ") as count"],
    orders := [], limitValue := none, offsetValue := none }

/-- The clone `Sum` builds: only the columns are replaced. -/
def QueryBuilder.sumQB (qb : QueryBuilder) (column : String) : QueryBuilder :=
  let c := qb.clone
  { c with columns := ["SUM(" ++ column ++ ") as sum"] }

/-- The clone `Avg` builds: only the columns are replaced. -/
def QueryBuilder.avgQB (qb : QueryBuilder) (column : String) : QueryBuilder :=
  let c := qb.clone
  { c with columns := ["AVG(" ++ column ++ ") as avg"] }

/-- The clone `Max` builds: only the columns are replaced. -/
def QueryBuilder.maxQB (qb : QueryBuilder) (column : String) : QueryBuilder :=
  let c := qb.clone
  { c with columns := ["MAX(" ++ column ++ ") as max"] }

/-- The clone `Min` builds: only the columns are replaced. -/
def QueryBuilder.minQB (qb : QueryBuilder) (column : String) : QueryBuilder :=
  let c := qb.clone
  { c with columns := ["MIN(" ++ column ++ ") as min"] }

/-! ## Pagination (relationships.go). -/

/-- `PaginationResult` (relationships.go). -/
structure PaginationResult where
  Data : List Row
  Total : Int
  PerPage : Int
  CurrentPage : Int
  LastPage : Int
  From : Int
  To : Int
deriving DecidableEq, Repr

/-- Modelled from the spec: the external database engine's LIMIT/OFFSET
row-windowing — the Execution Adapter's connection collaborator is outside
src/ — skip `offset` rows of the result set, then return at most `limit`
rows.  Negative values clamp to 0 (they do not occur under the claims'
hypotheses). -/
def runSelectWindow (table : List Row) (qb : QueryBuilder) : List Row :=
  let afterOffset := table.drop (match qb.offsetValue with
    | some n => n.toNat | none => 0)
  match qb.limitValue with
  | some n => afterOffset.take n.toNat
  | none => afterOffset

/-- `Paginate` (relationships.go), run against the result set `table` that
the query's filters select: `Count()` (whose clone clears limit/offset)
yields the full result-set size; then `Offset((page-1)*perPage).Limit(perPage)`
is executed for the page rows, and the summary fields are computed exactly
as the Go code does.  Division on nonnegative operands, the only range the
claims exercise, agrees between Go's truncated and Lean's Euclidean `/`. -/
def QueryBuilder.Paginate (qb : QueryBuilder) (table : List Row)
    (page perPage : Int) : PaginationResult :=
  let total : Int := table.length
  let offset := (page - 1) * perPage
  let qb2 := (qb.Offset offset).Limit perPage
  let results := runSelectWindow table qb2
  { Data := results, Total := total, PerPage := perPage, CurrentPage := page,
    LastPage := (total + perPage - 1) / perPage,
    From := offset + 1, To := offset + results.length }

/-! ## Relationships (relationships.go). -/

/-- Relationship type constants (relationships.go). -/
def HasOne : String := "hasOne"

/-- Relationship type constant. -/
def HasMany : String := "hasMany"

/-- Relationship type constant. -/
def BelongsTo : String := "belongsTo"

/-- Relationship type constant. -/
def BelongsToMany : String := "belongsToMany"

/-- Relationship type constant. -/
def HasOneThrough : String := "hasOneThrough"

/-- Relationship type constant. -/
def HasManyThrough : String := "hasManyThrough"

/-- Relationship type constant. -/
def MorphOne : String := "morphOne"

/-- Relationship type constant. -/
def MorphMany : String := "morphMany"

/-- Relationship type constant. -/
def MorphTo : String := "morphTo"

/-- `Relationship` (relationships.go); Go field `Type` renamed `typ`.  The
`Query` pointer is never read by `buildQuery` and is not modelled. -/
structure Relationship where
  typ : String
  Related : String
  ForeignKey : String
  LocalKey : String
  PivotTable : String
  FirstKey : String
  SecondKey : String
  ThroughModel : String
  ThroughKey : String
  MorphType : String
  MorphId : String
  Constraints : List (QueryBuilder → QueryBuilder)

/-- The `Relationship` built by `RelationshipBuilder.BelongsTo`
(relationships.go): default foreign key `toSnakeCase(related) + "_id"`,
overridden by the first variadic argument; `LocalKey` is the related
model's default primary key `id`. -/
def BelongsToRel (related : String) (foreignKey : List String) : Relationship :=
  let fk := match foreignKey with
    | [] => toSnakeCase related ++ "_id"
    | f :: _ => f
  { typ := BelongsTo, Related := related, ForeignKey := fk, LocalKey := "id",
    PivotTable := "", FirstKey := "", SecondKey := "", ThroughModel := "",
    ThroughKey := "", MorphType := "", MorphId := "", Constraints := [] }

/-- `buildQuery` (relationships.go): builds the relationship's query.  Every
branch binds the literal string "PLACEHOLDER" as the equality argument (the
Go comments read "Would use actual model key value"); the owner's key value
is not even a parameter of the function, and no branch returns an error. -/
def Relationship.buildQuery (r : Relationship) : PanicOr QueryBuilder :=
  let qb := NewQueryBuilder
  let qb2 : PanicOr QueryBuilder :=
    if r.typ = HasOne ∨ r.typ = HasMany then
      (qb.Table r.Related).Where r.ForeignKey
        [GoValue.VStr "=", GoValue.VStr "PLACEHOLDER"]
    else if r.typ = BelongsTo then
      (qb.Table r.Related).Where r.LocalKey
        [GoValue.VStr "=", GoValue.VStr "PLACEHOLDER"]
    else if r.typ = BelongsToMany then
      (((qb.Table r.Related).Join r.PivotTable (r.Related ++ ".id") "="
          (r.PivotTable ++ "." ++ r.SecondKey))).Where
        (r.PivotTable ++ "." ++ r.FirstKey)
        [GoValue.VStr "=", GoValue.VStr "PLACEHOLDER"]
    else if r.typ = HasOneThrough ∨ r.typ = HasManyThrough then
      (((qb.Table r.Related).Join r.ThroughModel
          (r.Related ++ "." ++ r.SecondKey) "=" (r.ThroughModel ++ ".id"))).Where
        (r.ThroughModel ++ "." ++ r.FirstKey)
        [GoValue.VStr "=", GoValue.VStr "PLACEHOLDER"]
    else if r.typ = MorphOne ∨ r.typ = MorphMany then
      match (qb.Table r.Related).Where r.MorphType
          [GoValue.VStr "=", GoValue.VStr "PLACEHOLDER"] with
      | .ok q => q.Where r.MorphId [GoValue.VStr "=", GoValue.VStr "PLACEHOLDER"]
      | .panicked msg => .panicked msg
    else .ok qb
  match qb2 with
  | .ok q => .ok (r.Constraints.foldl (fun acc f => f acc) q)
  | .panicked msg => .panicked msg

/-! ## BaseModel (model.go).  The `casts`, `dates`, `relations` and
`connection` fields never affect the claims' operations (casts are a
read-time projection the claims do not exercise) and are not modelled. -/

/-- `BaseModel` (model.go). -/
structure BaseModel where
  table : String
  primaryKey : String
  fillable : List String
  guarded : List String
  hidden : List String
  visible : List String
  timestamps : Bool
  createdAt : String
  updatedAt : String
  deletedAt : String
  attributes : Row
  original : Row
  «exists» : Bool
  wasRecentlyCreated : Bool
deriving DecidableEq, Repr

/-- `NewBaseModel` (model.go): soft deletes are configured by default
(`deletedAt = "deleted_at"`). -/
def NewBaseModel : BaseModel :=
  { table := "", primaryKey := "id", fillable := [], guarded := [],
    hidden := [], visible := [], timestamps := true,
    createdAt := "created_at", updatedAt := "updated_at",
    deletedAt := "deleted_at", attributes := [], original := [],
    «exists» := false, wasRecentlyCreated := false }

/-- `GetTable` (model.go): the configured table name, else the snake-cased
struct name plus "s" — for the base struct itself, "base_models". -/
def BaseModel.GetTable (m : BaseModel) : String :=
  if m.table ≠ "" then m.table else toSnakeCase "BaseModel" ++ "s"

/-- `GetAttribute` (model.go) with the (unmodelled, empty) cast table:
the raw stored value, `nil` when absent. -/
def BaseModel.GetAttribute (m : BaseModel) (key : String) : GoValue :=
  mapGet m.attributes key

/-- `SetAttribute` (model.go). -/
def BaseModel.SetAttribute (m : BaseModel) (key : String) (value : GoValue) : BaseModel :=
  { m with attributes := mapSet m.attributes key value }

/-- `GetOriginal` (model.go). -/
def BaseModel.GetOriginal (m : BaseModel) (key : String) : GoValue :=
  mapGet m.original key

/-- `GetDirty` (model.go): the attributes whose key is missing from the
original snapshot or whose value differs from it (`reflect.DeepEqual` is
modelled by decidable equality of `GoValue`). -/
def BaseModel.GetDirty (m : BaseModel) : Row :=
  m.attributes.filter
    (fun kv => !(mapMem m.original kv.1) || !(mapGet m.original kv.1 == kv.2))

/-- `IsDirty` (model.go). -/
def BaseModel.IsDirty (m : BaseModel) (keys : List String) : Bool :=
  let dirty := m.GetDirty
  if keys.isEmpty then !dirty.isEmpty
  else keys.any (fun k => mapMem dirty k)

/-- `IsClean` (model.go). -/
def BaseModel.IsClean (m : BaseModel) (keys : List String) : Bool :=
  !(m.IsDirty keys)

/-- `contains` (model.go). -/
def BaseModel.contains (slice : List String) (item : String) : Bool :=
  slice.any (fun s => s == item)

/-- `isFillable` (model.go): fillable, when non-empty, is consulted alone;
otherwise guarded, when non-empty, is consulted; otherwise everything is
fillable. -/
def BaseModel.isFillable (m : BaseModel) (key : String) : Bool :=
  if m.fillable.length > 0 then BaseModel.contains m.fillable key
  else if m.guarded.length > 0 then !(BaseModel.contains m.guarded key)
  else true

/-- `Fill` (model.go): writes each given attribute only when it is
fillable; unauthorized keys are skipped without error. -/
def BaseModel.Fill (m : BaseModel) (attributes : Row) : BaseModel :=
  attributes.foldl
    (fun acc kv => if acc.isFillable kv.1 then acc.SetAttribute kv.1 kv.2 else acc) m

/-- `usesSoftDeletes` (model.go). -/
def BaseModel.usesSoftDeletes (m : BaseModel) : Bool :=
  m.deletedAt ≠ ""

/-- `syncOriginal` (model.go). -/
def BaseModel.syncOriginal (m : BaseModel) : BaseModel :=
  { m with original := m.attributes }

/-- A database statement issued by a persistence method. -/
inductive DbOp where
  | insertOp (query : String) (args : List GoValue)
  | updateOp (query : String) (args : List GoValue)
  | deleteOp (query : String) (args : List GoValue)
deriving DecidableEq, Repr

/-- Result of a Go persistence method: the mutated model, the statements it
sent to the database, and its `error` return value.  The database itself is
modelled as accepting every statement (driver failures are orthogonal to
the claims about which statements are issued). -/
structure OpResult where
  model : BaseModel
  ops : List DbOp
  err : Option String
deriving DecidableEq, Repr

/-- The model state `performUpdate` builds its SET list from: the
updated-timestamp refreshed first when timestamps are enabled. -/
def updModel (m : BaseModel) (now : GoValue) : BaseModel :=
  if m.timestamps then m.SetAttribute m.updatedAt now else m

/-- The (column, value) pairs of `performUpdate`'s SET list: every attribute
except the primary key — the dirty diff plays no part. -/
def updSetPairs (m : BaseModel) (now : GoValue) : Row :=
  (updModel m now).attributes.filter (fun kv => kv.1 ≠ m.primaryKey)

/-- The UPDATE text `performUpdate` issues. -/
def updQuery (m : BaseModel) (now : GoValue) : String :=
  "UPDATE " ++ m.GetTable ++ " SET " ++
    goJoin ", " ((updSetPairs m now).map (fun kv => kv.1 ++ " = ?")) ++
    " WHERE " ++ m.primaryKey ++ " = ?"

/-- The argument list `performUpdate` binds: the SET values then the primary
key value for the WHERE clause. -/
def updValues (m : BaseModel) (now : GoValue) : List GoValue :=
  (updSetPairs m now).map (fun kv => kv.2) ++
    [(updModel m now).GetAttribute m.primaryKey]

/-- `performUpdate` (model.go): refresh the updated-timestamp if enabled,
issue one UPDATE over every non-primary-key attribute, resync original.
It is issued unconditionally — no dirty check, no empty-diff short-circuit. -/
def BaseModel.performUpdate (m : BaseModel) (now : GoValue) : OpResult :=
  let m1 := updModel m now
  { model := m1.syncOriginal,
    ops := [DbOp.updateOp (updQuery m now) (updValues m now)], err := none }

/-- `performInsert` (model.go): timestamps set if enabled, primary key
generated when absent (the random/backend-generated id is the `genId`
parameter), one INSERT over all attributes, state flipped to existing. -/
def BaseModel.performInsert (m : BaseModel) (now genId : GoValue) : OpResult :=
  let m1 := if m.timestamps
    then (m.SetAttribute m.createdAt now).SetAttribute m.updatedAt now else m
  let m2 := if m1.GetAttribute m1.primaryKey = GoValue.VNull
    then m1.SetAttribute m1.primaryKey genId else m1
  let query := "INSERT INTO " ++ m2.GetTable ++ " (" ++
    goJoin ", " (m2.attributes.map (fun kv => kv.1)) ++ ") VALUES (" ++
    goJoin ", " (m2.attributes.map (fun _ => "?")) ++ ")"
  let m3 := { m2.syncOriginal with «exists» := true, wasRecentlyCreated := true }
  { model := m3,
    ops := [DbOp.insertOp query (m2.attributes.map (fun kv => kv.2))], err := none }

/-- `Save` (model.go): update when the record exists, insert otherwise. -/
def BaseModel.Save (m : BaseModel) (now genId : GoValue) : OpResult :=
  if m.exists then m.performUpdate now else m.performInsert now genId

/-- `performDelete` (model.go): errors without I/O when the primary key
value is nil, else issues one hard DELETE. -/
def BaseModel.performDelete (m : BaseModel) : OpResult :=
  let pkVal := m.GetAttribute m.primaryKey
  if pkVal = GoValue.VNull then
    { model := m, ops := [], err := some "cannot delete record without primary key" }
  else
    { model := m,
      ops := [DbOp.deleteOp
        ("DELETE FROM " ++ m.GetTable ++ " WHERE " ++ m.primaryKey ++ " = ?") [pkVal]],
      err := none }

/-- `runSoftDelete` (model.go): set the soft-delete column to the current
time, then `performUpdate` (both time reads modelled by the same `now`). -/
def BaseModel.runSoftDelete (m : BaseModel) (now : GoValue) : OpResult :=
  (m.SetAttribute m.deletedAt now).performUpdate now

/-- `Delete` (model.go): soft delete when a soft-delete column is
configured, hard delete otherwise. -/
def BaseModel.Delete (m : BaseModel) (now : GoValue) : OpResult :=
  if m.usesSoftDeletes then m.runSoftDelete now else m.performDelete

/-- `ForceDelete` (model.go): always the hard delete path. -/
def BaseModel.ForceDelete (m : BaseModel) : OpResult :=
  m.performDelete

/-- `performRestore` (model.go): null the soft-delete column and update. -/
def BaseModel.performRestore (m : BaseModel) (now : GoValue) : OpResult :=
  (m.SetAttribute m.deletedAt GoValue.VNull).performUpdate now

/-- `Restore` (model.go): an error without any I/O when no soft-delete
column is configured. -/
def BaseModel.Restore (m : BaseModel) (now : GoValue) : OpResult :=
  if ¬ m.usesSoftDeletes then
    { model := m, ops := [], err := some "model does not use soft deletes" }
  else m.performRestore now

/-- Number of `?` placeholder markers in a SQL string. -/
def countQ (s : String) : Nat := s.data.countP (fun c => c = '?')

/-- A string free of the placeholder marker (true of SQL identifiers and
operators; a column name containing `?` would corrupt the positional
correspondence in any placeholder-based SQL builder). -/
def strNoQ (s : String) : Prop := ∀ c ∈ s.data, c ≠ '?'

/-- Decidability of `strNoQ`, for concrete witnesses. -/
instance strNoQ_decidable (s : String) : Decidable (strNoQ s) :=
  inferInstanceAs (Decidable (∀ c ∈ s.data, c ≠ '?'))

/-- Marker-free where clause: column, operator and boolean connector. -/
def WhereNoQ (w : WhereClause) : Prop :=
  strNoQ w.Column ∧ strNoQ w.Operator ∧ strNoQ w.Boolean

/-- Marker-free join clause. -/
def JoinNoQ (j : JoinClause) : Prop :=
  strNoQ j.Table ∧ strNoQ j.First ∧ strNoQ j.Operator ∧ strNoQ j.Second ∧
    strNoQ j.typ

/-- Marker-free having clause. -/
def HavingNoQ (h : HavingClause) : Prop :=
  strNoQ h.Column ∧ strNoQ h.Operator ∧ strNoQ h.Boolean

/-- Marker-free order clause. -/
def OrderNoQ (o : OrderClause) : Prop :=
  strNoQ o.Column ∧ strNoQ o.Direction

/-- All textual clause components of the builder are marker-free. -/
def QueryBuilderNoQ (qb : QueryBuilder) : Prop :=
  strNoQ qb.table ∧ (∀ c ∈ qb.columns, strNoQ c) ∧
  (∀ j ∈ qb.joins, JoinNoQ j) ∧ (∀ w ∈ qb.wheres, WhereNoQ w) ∧
  (∀ g ∈ qb.groups, strNoQ g) ∧ (∀ h ∈ qb.havings, HavingNoQ h) ∧
  (∀ o ∈ qb.orders, OrderNoQ o)

/-- Well-formed where clause, as every builder method produces them: a
between clause carries exactly two values (the Go `ToSQL` indexes
`Values[0]` and `Values[1]` unconditionally). -/
def WhereWF (w : WhereClause) : Prop :=
  w.typ = "between" → w.Values.length = 2

/-- Decidability instances for the marker-free predicates, used by the
concrete witnesses. -/
instance WhereNoQ_decidable (w : WhereClause) : Decidable (WhereNoQ w) :=
  inferInstanceAs (Decidable (strNoQ w.Column ∧ strNoQ w.Operator ∧ strNoQ w.Boolean))

/-- Decidability of `JoinNoQ`. -/
instance JoinNoQ_decidable (j : JoinClause) : Decidable (JoinNoQ j) :=
  inferInstanceAs (Decidable (strNoQ j.Table ∧ strNoQ j.First ∧ strNoQ j.Operator ∧
    strNoQ j.Second ∧ strNoQ j.typ))

/-- Decidability of `HavingNoQ`. -/
instance HavingNoQ_decidable (h : HavingClause) : Decidable (HavingNoQ h) :=
  inferInstanceAs (Decidable (strNoQ h.Column ∧ strNoQ h.Operator ∧ strNoQ h.Boolean))

/-- Decidability of `OrderNoQ`. -/
instance OrderNoQ_decidable (o : OrderClause) : Decidable (OrderNoQ o) :=
  inferInstanceAs (Decidable (strNoQ o.Column ∧ strNoQ o.Direction))

/-- Decidability of `QueryBuilderNoQ`. -/
instance QueryBuilderNoQ_decidable (qb : QueryBuilder) :
    Decidable (QueryBuilderNoQ qb) :=
  inferInstanceAs (Decidable (strNoQ qb.table ∧ (∀ c ∈ qb.columns, strNoQ c) ∧
    (∀ j ∈ qb.joins, JoinNoQ j) ∧ (∀ w ∈ qb.wheres, WhereNoQ w) ∧
    (∀ g ∈ qb.groups, strNoQ g) ∧ (∀ h ∈ qb.havings, HavingNoQ h) ∧
    (∀ o ∈ qb.orders, OrderNoQ o)))

/-- Decidability of `WhereWF`. -/
instance WhereWF_decidable (w : WhereClause) : Decidable (WhereWF w) :=
  inferInstanceAs (Decidable (w.typ = "between" → w.Values.length = 2))

/-- The claim's per-predicate binding discipline: a basic predicate binds
its one value, an in/not-in predicate binds its value list in order, a
null/not-null predicate binds nothing, a between predicate binds its
`[min, max]` pair, and an unrecognized kind binds nothing. -/
def specClauseArgs (w : WhereClause) : List GoValue :=
  if w.typ = "basic" then [w.Value]
  else if w.typ = "in" then w.Values
  else if w.typ = "null" then []
  else if w.typ = "between" then w.Values
  else []

/-! ## Helper lemmas on the Go-map model. -/

theorem find?_replace_ne (m : Row) (k' : String) (v : GoValue) (k : String)
    (h : k ≠ k') :
    (m.map (fun kv => if kv.1 == k' then (kv.1, v) else kv)).find?
        (fun kv => kv.1 == k) =
      m.find? (fun kv => kv.1 == k) := by
  induction m with
  | nil => rfl
  | cons kv rest ih =>
      obtain ⟨k0, v0⟩ := kv
      rw [List.map_cons]
      by_cases hk : k0 = k
      · subst hk
        have hne : (k0 == k') = false := beq_eq_false_iff_ne.mpr h
        simp only [hne, if_false, Bool.false_eq_true]
        rw [List.find?_cons_of_pos _ (by simp), List.find?_cons_of_pos _ (by simp)]
      · by_cases hk' : k0 = k'
        · subst hk'
          simp only [beq_self_eq_true, if_true]
          rw [List.find?_cons_of_neg _ (by simp [hk]),
              List.find?_cons_of_neg _ (by simp [hk])]
          exact ih
        · have hne : (k0 == k') = false := beq_eq_false_iff_ne.mpr hk'
          simp only [hne, if_false, Bool.false_eq_true]
          rw [List.find?_cons_of_neg _ (by simp [hk]),
              List.find?_cons_of_neg _ (by simp [hk])]
          exact ih

theorem mapGet_mapSet_ne (m : Row) (k' : String) (v : GoValue) (k : String)
    (h : k ≠ k') : mapGet (mapSet m k' v) k = mapGet m k := by
  unfold mapSet mapGet
  by_cases hm : mapMem m k'
  · rw [if_pos hm, find?_replace_ne m k' v k h]
  · rw [if_neg hm, List.find?_append]
    have hone : List.find? (fun kv => kv.1 == k) [(k', v)] = none := by
      rw [List.find?_cons_of_neg _ (by simp [Ne.symm h])]
      rfl
    rw [hone, Option.or_none]

theorem mapMem_replace (m : Row) (k' : String) (v : GoValue) (k : String) :
    mapMem (m.map (fun kv => if kv.1 == k' then (kv.1, v) else kv)) k = mapMem m k := by
  induction m with
  | nil => rfl
  | cons kv rest ih =>
      obtain ⟨k0, v0⟩ := kv
      rw [List.map_cons]
      unfold mapMem at ih ⊢
      rw [List.any_cons, List.any_cons, ih]
      by_cases hk' : k0 = k' <;> simp [hk']

theorem mapMem_mapSet_ne (m : Row) (k' : String) (v : GoValue) (k : String)
    (h : k ≠ k') : mapMem (mapSet m k' v) k = mapMem m k := by
  unfold mapSet
  by_cases hm : mapMem m k'
  · rw [if_pos hm, mapMem_replace]
  · rw [if_neg hm]
    unfold mapMem
    rw [List.any_append]
    simp [Ne.symm h]

theorem mapMem_mapSet_self (m : Row) (k : String) (v : GoValue) :
    mapMem (mapSet m k v) k = true := by
  unfold mapSet
  by_cases hm : mapMem m k
  · rw [if_pos hm, mapMem_replace]
    exact hm
  · rw [if_neg hm]
    unfold mapMem
    rw [List.any_append]
    simp

theorem mapGet_replace_self (m : Row) (k : String) (v : GoValue)
    (hm : mapMem m k = true) :
    mapGet (m.map (fun kv => if kv.1 == k then (kv.1, v) else kv)) k = v := by
  induction m with
  | nil => simp [mapMem] at hm
  | cons kv rest ih =>
      obtain ⟨k0, v0⟩ := kv
      rw [List.map_cons]
      by_cases hk : k0 = k
      · subst hk
        simp only [beq_self_eq_true, if_true]
        unfold mapGet
        rw [List.find?_cons_of_pos _ (by simp)]
      · have hm' : mapMem rest k = true := by
          unfold mapMem at hm
          rw [List.any_cons] at hm
          cases hb : (k0 == k) with
          | true => exact absurd (by simpa using hb) hk
          | false =>
              rw [hb, Bool.false_or] at hm
              exact hm
        have hne : (k0 == k) = false := beq_eq_false_iff_ne.mpr hk
        simp only [hne, if_false, Bool.false_eq_true]
        unfold mapGet at ih ⊢
        rw [List.find?_cons_of_neg _ (by simp [hk])]
        exact ih hm'

theorem mapGet_mapSet_self (m : Row) (k : String) (v : GoValue) :
    mapGet (mapSet m k v) k = v := by
  unfold mapSet
  by_cases hm : mapMem m k
  · rw [if_pos hm]
    exact mapGet_replace_self m k v hm
  · rw [if_neg hm]
    unfold mapGet
    rw [List.find?_append]
    have hnone : List.find? (fun kv => kv.1 == k) m = none := by
      rw [List.find?_eq_none]
      intro x hx hpx
      apply hm
      unfold mapMem
      rw [List.any_eq_true]
      exact ⟨x, hx, hpx⟩
    rw [hnone]
    rw [List.find?_cons_of_pos _ (by simp)]
    rfl

/-! ## Mass assignment (claim C6). -/

theorem contains_iff (l : List String) (s : String) :
    BaseModel.contains l s = true ↔ s ∈ l := by
  unfold BaseModel.contains
  rw [List.any_eq_true]
  constructor
  · rintro ⟨x, hx, he⟩
    rw [eq_of_beq he] at hx
    exact hx
  · intro hs
    exact ⟨s, hs, by simp⟩

theorem isFillable_setAttribute (m : BaseModel) (k' : String) (v : GoValue)
    (k : String) : (m.SetAttribute k' v).isFillable k = m.isFillable k := rfl

theorem fill_get_of_not_fillable (attrs : Row) :
    ∀ (m : BaseModel) (k : String), m.isFillable k = false →
      mapGet (m.Fill attrs).attributes k = mapGet m.attributes k := by
  induction attrs with
  | nil =>
      intro m k _
      rfl
  | cons kv rest ih =>
      intro m k h
      simp only [BaseModel.Fill, List.foldl_cons] at ih ⊢
      by_cases hf : m.isFillable kv.1
      · rw [if_pos hf]
        have hk : k ≠ kv.1 := by
          intro he
          rw [he, hf] at h
          exact Bool.true_eq_false.mp h
        rw [ih _ k (by rw [isFillable_setAttribute]; exact h)]
        exact mapGet_mapSet_ne _ _ _ _ hk
      · rw [if_neg hf]
        exact ih m k h

theorem fill_mem_of_not_fillable (attrs : Row) :
    ∀ (m : BaseModel) (k : String), m.isFillable k = false →
      mapMem (m.Fill attrs).attributes k = mapMem m.attributes k := by
  induction attrs with
  | nil =>
      intro m k _
      rfl
  | cons kv rest ih =>
      intro m k h
      simp only [BaseModel.Fill, List.foldl_cons] at ih ⊢
      by_cases hf : m.isFillable kv.1
      · rw [if_pos hf]
        have hk : k ≠ kv.1 := by
          intro he
          rw [he, hf] at h
          exact Bool.true_eq_false.mp h
        rw [ih _ k (by rw [isFillable_setAttribute]; exact h)]
        exact mapMem_mapSet_ne _ _ _ _ hk
      · rw [if_neg hf]
        exact ih m k h

theorem fill_mem_mono (attrs : Row) :
    ∀ (m : BaseModel) (k : String), mapMem m.attributes k = true →
      mapMem (m.Fill attrs).attributes k = true := by
  induction attrs with
  | nil =>
      intro m k h
      exact h
  | cons kv rest ih =>
      intro m k h
      simp only [BaseModel.Fill, List.foldl_cons] at ih ⊢
      by_cases hf : m.isFillable kv.1
      · rw [if_pos hf]
        apply ih
        show mapMem (mapSet m.attributes kv.1 kv.2) k = true
        by_cases hk : k = kv.1
        · rw [hk]
          exact mapMem_mapSet_self _ _ _
        · rw [mapMem_mapSet_ne _ _ _ _ hk]
          exact h
      · rw [if_neg hf]
        exact ih m k h

theorem fill_writes_member (attrs : Row) :
    ∀ (m : BaseModel) (k : String) (v : GoValue),
      m.isFillable k = true → (k, v) ∈ attrs →
      mapMem (m.Fill attrs).attributes k = true := by
  induction attrs with
  | nil =>
      intro m k v _ hmem
      exact absurd hmem (List.not_mem_nil _)
  | cons kv rest ih =>
      intro m k v hfill hmem
      simp only [BaseModel.Fill, List.foldl_cons] at ih ⊢
      rcases List.mem_cons.mp hmem with he | ht
      · have hk : kv.1 = k := by rw [← he]
        by_cases hf : m.isFillable kv.1
        · rw [if_pos hf]
          apply fill_mem_mono
          show mapMem (mapSet m.attributes kv.1 kv.2) k = true
          rw [hk]
          exact mapMem_mapSet_self _ _ _
        · rw [hk] at hf
          exact absurd hfill hf
      · by_cases hf : m.isFillable kv.1
        · rw [if_pos hf]
          exact ih _ k v hfill ht
        · rw [if_neg hf]
          exact ih m k v hfill ht

/-- C6: `Fill` writes only mass-assignment-authorized keys and silently
drops unauthorized ones (no error value exists — `Fill` returns the model);
a key is authorized by membership in `fillable` whenever `fillable` is
non-empty, by absence from `guarded` when `fillable` is empty and `guarded`
is non-empty, and unconditionally when both are empty. -/
theorem c6_fill_mass_assignment (m : BaseModel) (attrs : Row) (k : String) :
    (m.isFillable k = true ↔
      (if m.fillable ≠ [] then k ∈ m.fillable
       else if m.guarded ≠ [] then k ∉ m.guarded else True)) ∧
    (m.isFillable k = false →
      mapGet (m.Fill attrs).attributes k = mapGet m.attributes k ∧
      mapMem (m.Fill attrs).attributes k = mapMem m.attributes k) ∧
    (∀ v : GoValue, m.isFillable k = true → (k, v) ∈ attrs →
      mapMem (m.Fill attrs).attributes k = true) := by
  refine ⟨?_, ?_, ?_⟩
  · unfold BaseModel.isFillable
    by_cases hf : m.fillable = []
    · by_cases hg : m.guarded = []
      · simp [hf, hg]
      · have hlen : ¬ m.fillable.length > 0 := by simp [hf]
        have hglen : m.guarded.length > 0 := List.length_pos.mpr hg
        rw [if_neg hlen, if_pos hglen, if_neg (by simp [hf]), if_pos hg]
        cases hc : BaseModel.contains m.guarded k
        · simp only [Bool.not_false]
          constructor
          · intro _ hmem
            rw [(contains_iff _ _).mpr hmem] at hc
            exact Bool.true_eq_false.mp hc
          · intro _
            trivial
        · simp only [Bool.not_true]
          constructor
          · intro hfalse
            exact absurd hfalse (by simp)
          · intro hnmem
            exact absurd ((contains_iff _ _).mp hc) hnmem
    · have hlen : m.fillable.length > 0 := List.length_pos.mpr hf
      rw [if_pos hlen, if_pos hf]
      exact contains_iff _ _
  · intro h
    exact ⟨fill_get_of_not_fillable attrs m k h, fill_mem_of_not_fillable attrs m k h⟩
  · intro v hfill hmem
    exact fill_writes_member attrs m k v hfill hmem

/-- Witness for C6 at a concrete model: fillable = ["name"], attributes
`{name: "X", admin: true}` — `name` is authorized and written, `admin` is
unauthorized and dropped without error. -/
theorem c6_witness :
    mapGet (({ NewBaseModel with fillable := ["name"] } : BaseModel).Fill
        [("name", GoValue.VStr "X"), ("admin", GoValue.VBool true)]).attributes "admin" =
      mapGet ({ NewBaseModel with fillable := ["name"] } : BaseModel).attributes "admin" ∧
    mapMem (({ NewBaseModel with fillable := ["name"] } : BaseModel).Fill
        [("name", GoValue.VStr "X"), ("admin", GoValue.VBool true)]).attributes "name" = true :=
  ⟨((c6_fill_mass_assignment ({ NewBaseModel with fillable := ["name"] } : BaseModel)
      [("name", GoValue.VStr "X"), ("admin", GoValue.VBool true)] "admin").2.1
      (by decide)).1,
   (c6_fill_mass_assignment ({ NewBaseModel with fillable := ["name"] } : BaseModel)
      [("name", GoValue.VStr "X"), ("admin", GoValue.VBool true)] "name").2.2
      (GoValue.VStr "X") (by decide) (by decide)⟩

/-! ## Where-clause arity dispatch (claim C10). -/

/-- C10: `Where`/`OrWhere` with zero or three-or-more variadic arguments
panic with the message "Invalid number of arguments for where clause"
instead of returning an error value; with exactly one argument the operator
defaults to `=`; with two arguments the first is type-asserted to a string
operator, panicking on any non-string first argument. -/
theorem c10_where_arity_dispatch (qb : QueryBuilder) (column : String)
    (args : List GoValue) :
    (args = [] →
      qb.Where column args =
        .panicked "Invalid number of arguments for where clause" ∧
      qb.OrWhere column args =
        .panicked "Invalid number of arguments for where clause") ∧
    (3 ≤ args.length →
      qb.Where column args =
        .panicked "Invalid number of arguments for where clause" ∧
      qb.OrWhere column args =
        .panicked "Invalid number of arguments for where clause") ∧
    (∀ v : GoValue, args = [v] →
      qb.Where column args = .ok { qb with wheres := qb.wheres ++
        [{ Column := column, Operator := "=", Value := v,
           Boolean := "and", typ := "basic", Values := [] }] } ∧
      qb.OrWhere column args = .ok { qb with wheres := qb.wheres ++
        [{ Column := column, Operator := "=", Value := v,
           Boolean := "or", typ := "basic", Values := [] }] }) ∧
    (∀ (s : String) (v : GoValue), args = [GoValue.VStr s, v] →
      qb.Where column args = .ok { qb with wheres := qb.wheres ++
        [{ Column := column, Operator := s, Value := v,
           Boolean := "and", typ := "basic", Values := [] }] }) ∧
    (∀ a v : GoValue, args = [a, v] → (∀ s : String, a ≠ GoValue.VStr s) →
      ∃ msg, qb.Where column args = .panicked msg) := by
  refine ⟨?_, ?_, ?_, ?_, ?_⟩
  · intro h
    subst h
    exact ⟨rfl, rfl⟩
  · intro h
    rcases args with _ | ⟨a, _ | ⟨b, _ | ⟨c, rest⟩⟩⟩
    · simp at h
    · simp at h
    · simp at h
    · exact ⟨rfl, rfl⟩
  · intro v h
    subst h
    exact ⟨rfl, rfl⟩
  · intro s v h
    subst h
    rfl
  · intro a v h hns
    subst h
    cases a with
    | VNull => exact ⟨_, rfl⟩
    | VStr s => exact absurd rfl (hns s)
    | VInt n => exact ⟨_, rfl⟩
    | VBool b => exact ⟨_, rfl⟩
    | VTime t => exact ⟨_, rfl⟩

/-- Witness for C10 at concrete inputs: zero args and three args panic with
the fixed message; one argument defaults to equality; a non-string first
argument of two panics. -/
theorem c10_witness :
    (NewQueryBuilder.Where "age" [] =
      .panicked "Invalid number of arguments for where clause") ∧
    (NewQueryBuilder.Where "age" [GoValue.VInt 1, GoValue.VInt 2, GoValue.VInt 3] =
      .panicked "Invalid number of arguments for where clause") ∧
    (NewQueryBuilder.Where "age" [GoValue.VInt 18] = .ok
      { NewQueryBuilder with wheres :=
        [{ Column := "age", Operator := "=", Value := GoValue.VInt 18,
           Boolean := "and", typ := "basic", Values := [] }] }) ∧
    (∃ msg, NewQueryBuilder.Where "age" [GoValue.VInt 5, GoValue.VInt 2] =
      .panicked msg) :=
  ⟨((c10_where_arity_dispatch NewQueryBuilder "age" []).1 rfl).1,
   ((c10_where_arity_dispatch NewQueryBuilder "age"
      [GoValue.VInt 1, GoValue.VInt 2, GoValue.VInt 3]).2.1 (by decide)).1,
   by
     have h := ((c10_where_arity_dispatch NewQueryBuilder "age"
       [GoValue.VInt 18]).2.2.1 (GoValue.VInt 18) rfl).1
     simpa using h,
   (c10_where_arity_dispatch NewQueryBuilder "age"
      [GoValue.VInt 5, GoValue.VInt 2]).2.2.2.2 (GoValue.VInt 5) (GoValue.VInt 2)
      rfl (by intro s h; cases h)⟩

/-! ## Aggregate clone state (claim C3). -/

/-- C3 (amended): `Count`'s clone clears orders, limit and offset while
preserving wheres, joins, groups and havings; but `Sum`, `Avg`, `Min` and
`Max` clone the builder replacing only the projected columns — their clones
retain any previously set orders, limit and offset unchanged. -/
theorem c3_aggregate_clone_state (qb : QueryBuilder) (column : String) :
    ((qb.countQB column).orders = [] ∧
     (qb.countQB column).limitValue = none ∧
     (qb.countQB column).offsetValue = none ∧
     (qb.countQB column).wheres = qb.wheres ∧
     (qb.countQB column).joins = qb.joins ∧
     (qb.countQB column).groups = qb.groups ∧
     (qb.countQB column).havings = qb.havings) ∧
    ((qb.sumQB column).wheres = qb.wheres ∧
     (qb.sumQB column).joins = qb.joins ∧
     (qb.sumQB column).groups = qb.groups ∧
     (qb.sumQB column).havings = qb.havings ∧
     (qb.sumQB column).orders = qb.orders ∧
     (qb.sumQB column).limitValue = qb.limitValue ∧
     (qb.sumQB column).offsetValue = qb.offsetValue) ∧
    ((qb.avgQB column).orders = qb.orders ∧
     (qb.avgQB column).limitValue = qb.limitValue ∧
     (qb.avgQB column).offsetValue = qb.offsetValue ∧
     (qb.avgQB column).wheres = qb.wheres ∧
     (qb.avgQB column).joins = qb.joins ∧
     (qb.avgQB column).groups = qb.groups ∧
     (qb.avgQB column).havings = qb.havings) ∧
    ((qb.maxQB column).orders = qb.orders ∧
     (qb.maxQB column).limitValue = qb.limitValue ∧
     (qb.maxQB column).offsetValue = qb.offsetValue ∧
     (qb.maxQB column).wheres = qb.wheres ∧
     (qb.maxQB column).joins = qb.joins ∧
     (qb.maxQB column).groups = qb.groups ∧
     (qb.maxQB column).havings = qb.havings) ∧
    ((qb.minQB column).orders = qb.orders ∧
     (qb.minQB column).limitValue = qb.limitValue ∧
     (qb.minQB column).offsetValue = qb.offsetValue ∧
     (qb.minQB column).wheres = qb.wheres ∧
     (qb.minQB column).joins = qb.joins ∧
     (qb.minQB column).groups = qb.groups ∧
     (qb.minQB column).havings = qb.havings) :=
  ⟨⟨rfl, rfl, rfl, rfl, rfl, rfl, rfl⟩,
   ⟨rfl, rfl, rfl, rfl, rfl, rfl, rfl⟩,
   ⟨rfl, rfl, rfl, rfl, rfl, rfl, rfl⟩,
   ⟨rfl, rfl, rfl, rfl, rfl, rfl, rfl⟩,
   ⟨rfl, rfl, rfl, rfl, rfl, rfl, rfl⟩⟩

/-- C3 counterexample: on a builder with an order, a limit and an offset
set, `Sum`'s clone retains all three — the claim requires every aggregate's
clone to have them cleared. -/
theorem c3_sum_retains_order_counterexample :
    (({ table := "products", wheres := [],
        orders := [{ Column := "name", Direction := "asc" }],
        joins := [], groups := [], havings := [], limitValue := some 5,
        offsetValue := some 3, columns := ["*"],
        distinct := false } : QueryBuilder).sumQB "price").orders ≠ [] ∧
    (({ table := "products", wheres := [],
        orders := [{ Column := "name", Direction := "asc" }],
        joins := [], groups := [], havings := [], limitValue := some 5,
        offsetValue := some 3, columns := ["*"],
        distinct := false } : QueryBuilder).sumQB "price").limitValue ≠ none ∧
    (({ table := "products", wheres := [],
        orders := [{ Column := "name", Direction := "asc" }],
        joins := [], groups := [], havings := [], limitValue := some 5,
        offsetValue := some 3, columns := ["*"],
        distinct := false } : QueryBuilder).sumQB "price").offsetValue ≠ none := by
  refine ⟨?_, ?_, ?_⟩ <;> decide

/-! ## Relationship key binding (claim C2). -/

/-- C2: the belongsTo relationship from posts to users (related table
`users`, local key `id`): `buildQuery` succeeds — it never reports the
"key not yet known" error the claim requires — and binds the literal
sentinel string "PLACEHOLDER" as the equality argument instead of the
owner's resolved key value. -/
theorem c2_buildQuery_binds_placeholder_sentinel :
    (BelongsToRel "users" []).buildQuery =
      .ok { table := "users",
            wheres := [{ Column := "id", Operator := "=",
                         Value := GoValue.VStr "PLACEHOLDER", Boolean := "and",
                         typ := "basic", Values := [] }],
            orders := [], joins := [], groups := [], havings := [],
            limitValue := none, offsetValue := none, columns := ["*"],
            distinct := false } := by decide

/-! ## Empty WhereIn (claim C5). -/

/-- C5: `WhereIn` with an empty value list does not panic (the compiler is
a total function here) and deterministically renders the predicate
`id IN ()` binding zero arguments — an IN clause with an empty value list,
which is not valid SQL syntax, rather than a valid matches-nothing
predicate. -/
theorem c5_whereIn_empty_renders_empty_in_list :
    ((NewQueryBuilder.Table "users").WhereIn "id" []).ToSQL =
      ("SELECT * FROM users WHERE id IN ()", []) := by decide

/-! ## Save and the dirty diff (claim C4). -/

/-- C4 counterexample: a Persisted model whose attributes all equal the
original snapshot — the dirty diff is empty, yet `Save` still issues one
UPDATE, and its SET list contains the unchanged non-key column `name`. -/
theorem c4_clean_save_issues_update_counterexample :
    (({ NewBaseModel with
        table := "users", timestamps := false, «exists» := true,
        attributes := [("id", GoValue.VStr "1"), ("name", GoValue.VStr "a")],
        original := [("id", GoValue.VStr "1"), ("name", GoValue.VStr "a")] }
      : BaseModel).GetDirty = []) ∧
    (({ NewBaseModel with
        table := "users", timestamps := false, «exists» := true,
        attributes := [("id", GoValue.VStr "1"), ("name", GoValue.VStr "a")],
        original := [("id", GoValue.VStr "1"), ("name", GoValue.VStr "a")] }
      : BaseModel).Save (GoValue.VTime 0) (GoValue.VStr "gen")).ops =
      [DbOp.updateOp "UPDATE users SET name = ? WHERE id = ?"
        [GoValue.VStr "a", GoValue.VStr "1"]] := by
  constructor <;> decide

/-- C4 (amended): `Save` on a Persisted model always issues exactly one
UPDATE — the dirty diff is never consulted and an empty diff does not
short-circuit — and its SET list consists of every attribute (after the
updated-timestamp refresh) except the primary key; the primary key never
appears in the SET list. -/
theorem c4_save_updates_all_non_key_columns (m : BaseModel)
    (now genId : GoValue) (h : m.exists = true) :
    (m.Save now genId).ops =
      [DbOp.updateOp (updQuery m now) (updValues m now)] ∧
    m.primaryKey ∉ (updSetPairs m now).map Prod.fst ∧
    updSetPairs m now =
      (updModel m now).attributes.filter (fun kv => kv.1 ≠ m.primaryKey) := by
  refine ⟨?_, ?_, rfl⟩
  · unfold BaseModel.Save
    rw [if_pos h]
    rfl
  · intro hmem
    rw [List.mem_map] at hmem
    obtain ⟨kv, hkv, hfst⟩ := hmem
    unfold updSetPairs at hkv
    have hp := List.of_mem_filter hkv
    simp only [decide_eq_true_eq] at hp
    exact hp hfst

/-- Witness for C4's amended theorem at a concrete Persisted model. -/
theorem c4_witness :
    (({ NewBaseModel with
        table := "users", «exists» := true,
        attributes := [("id", GoValue.VStr "1"), ("name", GoValue.VStr "a")],
        original := [("id", GoValue.VStr "1"), ("name", GoValue.VStr "a")] }
      : BaseModel).Save (GoValue.VTime 7) (GoValue.VStr "gen")).ops =
      [DbOp.updateOp
        (updQuery ({ NewBaseModel with
          table := "users", «exists» := true,
          attributes := [("id", GoValue.VStr "1"), ("name", GoValue.VStr "a")],
          original := [("id", GoValue.VStr "1"), ("name", GoValue.VStr "a")] }
          : BaseModel) (GoValue.VTime 7))
        (updValues ({ NewBaseModel with
          table := "users", «exists» := true,
          attributes := [("id", GoValue.VStr "1"), ("name", GoValue.VStr "a")],
          original := [("id", GoValue.VStr "1"), ("name", GoValue.VStr "a")] }
          : BaseModel) (GoValue.VTime 7))] :=
  (c4_save_updates_all_non_key_columns
    ({ NewBaseModel with
       table := "users", «exists» := true,
       attributes := [("id", GoValue.VStr "1"), ("name", GoValue.VStr "a")],
       original := [("id", GoValue.VStr "1"), ("name", GoValue.VStr "a")] }
      : BaseModel) (GoValue.VTime 7) (GoValue.VStr "gen") (by decide)).1

/-! ## Soft delete protocol (claim C8). -/

theorem performUpdate_model_exists (m : BaseModel) (now : GoValue) :
    (m.performUpdate now).model.exists = m.exists := by
  unfold BaseModel.performUpdate updModel BaseModel.syncOriginal BaseModel.SetAttribute
  by_cases ht : m.timestamps <;> simp [ht]

theorem performUpdate_model_attributes (m : BaseModel) (now : GoValue) :
    (m.performUpdate now).model.attributes = (updModel m now).attributes := rfl

/-- C8: with a soft-delete column configured, `Delete` issues exactly one
UPDATE (never a DELETE) whose model state has the soft-delete column set to
the current time and the `exists` flag unchanged (the record stays
Persisted); `ForceDelete` issues a hard DELETE whenever the record has a
primary key value, regardless of soft-delete configuration; `Restore`
without a configured soft-delete column returns the unsupported-operation
error "model does not use soft deletes" and performs no I/O. -/
theorem c8_soft_delete_protocol (m : BaseModel) (now : GoValue) :
    (m.deletedAt ≠ "" →
      (∃ q a, (m.Delete now).ops = [DbOp.updateOp q a]) ∧
      (m.Delete now).model.exists = m.exists ∧
      mapGet (m.Delete now).model.attributes m.deletedAt = now) ∧
    (m.GetAttribute m.primaryKey ≠ GoValue.VNull →
      ∃ q, m.ForceDelete.ops =
        [DbOp.deleteOp q [m.GetAttribute m.primaryKey]]) ∧
    (m.deletedAt = "" →
      (m.Restore now).err = some "model does not use soft deletes" ∧
      (m.Restore now).ops = [] ∧ (m.Restore now).model = m) := by
  refine ⟨?_, ?_, ?_⟩
  · intro h
    have hu : m.usesSoftDeletes = true := by
      unfold BaseModel.usesSoftDeletes
      simp [h]
    unfold BaseModel.Delete
    rw [if_pos hu]
    unfold BaseModel.runSoftDelete
    refine ⟨⟨_, _, rfl⟩, ?_, ?_⟩
    · rw [performUpdate_model_exists]
      rfl
    · rw [performUpdate_model_attributes]
      unfold updModel
      by_cases ht : (m.SetAttribute m.deletedAt now).timestamps
      · rw [if_pos ht]
        show mapGet (mapSet (mapSet m.attributes m.deletedAt now)
          m.updatedAt now) m.deletedAt = now
        by_cases hud : m.deletedAt = m.updatedAt
        · rw [← hud]
          exact mapGet_mapSet_self _ _ _
        · rw [mapGet_mapSet_ne _ _ _ _ hud]
          exact mapGet_mapSet_self _ _ _
      · rw [if_neg ht]
        exact mapGet_mapSet_self _ _ _
  · intro h
    unfold BaseModel.ForceDelete BaseModel.performDelete
    rw [if_neg h]
    exact ⟨_, rfl⟩
  · intro h
    have hu : m.usesSoftDeletes = false := by
      unfold BaseModel.usesSoftDeletes
      simp [h]
    unfold BaseModel.Restore
    rw [if_pos (by simp [hu])]
    exact ⟨rfl, rfl, rfl⟩

/-- Witness for C8: a soft-deletable persisted record (part one and two),
and a model with no soft-delete column configured (part three). -/
theorem c8_witness :
    (∃ q a, (({ NewBaseModel with
        table := "users", «exists» := true,
        attributes := [("id", GoValue.VStr "1")] } : BaseModel).Delete
        (GoValue.VTime 9)).ops = [DbOp.updateOp q a]) ∧
    (∃ q, ({ NewBaseModel with
        table := "users", «exists» := true,
        attributes := [("id", GoValue.VStr "1")] } : BaseModel).ForceDelete.ops =
      [DbOp.deleteOp q [GoValue.VStr "1"]]) ∧
    (({ NewBaseModel with table := "users", deletedAt := "" } : BaseModel).Restore
        (GoValue.VTime 9)).err = some "model does not use soft deletes" ∧
    (({ NewBaseModel with table := "users", deletedAt := "" } : BaseModel).Restore
        (GoValue.VTime 9)).ops = [] :=
  ⟨((c8_soft_delete_protocol ({ NewBaseModel with
      table := "users", «exists» := true,
      attributes := [("id", GoValue.VStr "1")] } : BaseModel)
      (GoValue.VTime 9)).1 (by decide)).1,
   (c8_soft_delete_protocol ({ NewBaseModel with
      table := "users", «exists» := true,
      attributes := [("id", GoValue.VStr "1")] } : BaseModel)
      (GoValue.VTime 9)).2.1 (by decide),
   ((c8_soft_delete_protocol ({ NewBaseModel with
      table := "users", deletedAt := "" } : BaseModel)
      (GoValue.VTime 9)).2.2 rfl).1,
   ((c8_soft_delete_protocol ({ NewBaseModel with
      table := "users", deletedAt := "" } : BaseModel)
      (GoValue.VTime 9)).2.2 rfl).2.1⟩

/-! ## First-row error discrimination (claim C7). -/

/-- C7 counterexample: `FirstOrFail` maps a connection failure and a
zero-row result to the identical error value "model not found" — the two
conditions are indistinguishable to the caller, so the claim that the
first-row conveniences never conflate the two error kinds is false. -/
theorem c7_firstOrFail_conflates_counterexample :
    (NewQueryBuilder.Table "users").FirstOrFail
        (fun _ _ => .err "connection refused") = .err "model not found" ∧
    (NewQueryBuilder.Table "users").FirstOrFail
        (fun _ _ => .ok []) = .err "model not found" ∧
    (NewQueryBuilder.Table "users").FindOrFail
        (fun _ _ => .err "connection refused") (GoValue.VStr "1") =
      .ok (.err "model not found") ∧
    (NewQueryBuilder.Table "users").FindOrFail
        (fun _ _ => .ok []) (GoValue.VStr "1") =
      .ok (.err "model not found") := ⟨rfl, rfl, rfl, rfl⟩

/-- C7 (amended): `First` itself does distinguish the two kinds — a zero-row
result becomes the error "no records found" while an execution failure is
propagated with its own message unchanged — but `FirstOrFail` (and through
it `FindOrFail`) collapses every error from `First`, NotFound and execution
failure alike, into the single error "model not found". -/
theorem c7_first_error_discrimination (qb : QueryBuilder) (conn : Conn) :
    ((qb.Limit 1).Get conn = .ok [] →
      qb.First conn = .err "no records found") ∧
    (∀ e, (qb.Limit 1).Get conn = .err e → qb.First conn = .err e) ∧
    (∀ r rest, (qb.Limit 1).Get conn = .ok (r :: rest) →
      qb.First conn = .ok r) ∧
    (∀ e, qb.First conn = .err e →
      qb.FirstOrFail conn = .err "model not found") := by
  have hfirst : qb.First conn =
      match (qb.Limit 1).Get conn with
      | .err e => .err e
      | .ok results =>
          match results with
          | [] => .err "no records found"
          | r :: _ => .ok r := rfl
  refine ⟨?_, ?_, ?_, ?_⟩
  · intro h
    rw [hfirst, h]
  · intro e h
    rw [hfirst, h]
  · intro r rest h
    rw [hfirst, h]
  · intro e h
    unfold QueryBuilder.FirstOrFail
    rw [h]

/-- Witness for C7's amended theorem at concrete connections. -/
theorem c7_witness :
    ((NewQueryBuilder.Table "users").First (fun _ _ => .ok []) =
      .err "no records found") ∧
    ((NewQueryBuilder.Table "users").First (fun _ _ => .err "connection refused") =
      .err "connection refused") ∧
    ((NewQueryBuilder.Table "users").FirstOrFail (fun _ _ => .err "connection refused") =
      .err "model not found") :=
  ⟨(c7_first_error_discrimination (NewQueryBuilder.Table "users")
      (fun _ _ => .ok [])).1 rfl,
   (c7_first_error_discrimination (NewQueryBuilder.Table "users")
      (fun _ _ => .err "connection refused")).2.1 "connection refused" rfl,
   (c7_first_error_discrimination (NewQueryBuilder.Table "users")
      (fun _ _ => .err "connection refused")).2.2.2 "connection refused"
      ((c7_first_error_discrimination (NewQueryBuilder.Table "users")
        (fun _ _ => .err "connection refused")).2.1 "connection refused" rfl)⟩

/-! ## Pagination arithmetic (claim C9). -/

/-- C9: over a 25-row result set, `Paginate(page=2, perPage=10)` returns 10
rows with total=25, perPage=10, currentPage=2, lastPage=3, from=11, to=20;
and in general (perPage ≥ 1) `From = (page-1)*perPage + 1`,
`To = From - 1 + |rows returned|`, and `LastPage` is the ceiling of
total/perPage — the least k with perPage·k ≥ total. -/
theorem c9_paginate_arithmetic (qb : QueryBuilder) (table : List Row)
    (page perPage : Int) (hpp : 1 ≤ perPage) :
    ((NewQueryBuilder.Paginate
        ((List.range 25).map (fun i => [("id", GoValue.VInt (i : Int))]))
        2 10).Data.length = 10 ∧
     (NewQueryBuilder.Paginate
        ((List.range 25).map (fun i => [("id", GoValue.VInt (i : Int))]))
        2 10).Total = 25 ∧
     (NewQueryBuilder.Paginate
        ((List.range 25).map (fun i => [("id", GoValue.VInt (i : Int))]))
        2 10).PerPage = 10 ∧
     (NewQueryBuilder.Paginate
        ((List.range 25).map (fun i => [("id", GoValue.VInt (i : Int))]))
        2 10).CurrentPage = 2 ∧
     (NewQueryBuilder.Paginate
        ((List.range 25).map (fun i => [("id", GoValue.VInt (i : Int))]))
        2 10).LastPage = 3 ∧
     (NewQueryBuilder.Paginate
        ((List.range 25).map (fun i => [("id", GoValue.VInt (i : Int))]))
        2 10).From = 11 ∧
     (NewQueryBuilder.Paginate
        ((List.range 25).map (fun i => [("id", GoValue.VInt (i : Int))]))
        2 10).To = 20) ∧
    ((qb.Paginate table page perPage).From = (page - 1) * perPage + 1 ∧
     (qb.Paginate table page perPage).To =
       (qb.Paginate table page perPage).From - 1 +
         ((qb.Paginate table page perPage).Data.length : Int) ∧
     (qb.Paginate table page perPage).Total = (table.length : Int) ∧
     (qb.Paginate table page perPage).PerPage = perPage ∧
     (qb.Paginate table page perPage).CurrentPage = page ∧
     (table.length : Int) ≤ perPage * (qb.Paginate table page perPage).LastPage ∧
     (∀ k : Int, (table.length : Int) ≤ perPage * k →
        (qb.Paginate table page perPage).LastPage ≤ k)) := by
  constructor
  · refine ⟨?_, ?_, ?_, ?_, ?_, ?_, ?_⟩ <;> decide
  · refine ⟨rfl, ?_, rfl, rfl, rfl, ?_, ?_⟩
    · show ((page - 1) * perPage +
          ((runSelectWindow table ((qb.Offset ((page - 1) * perPage)).Limit
            perPage)).length : Int) : Int) =
        ((page - 1) * perPage + 1) - 1 +
          ((runSelectWindow table ((qb.Offset ((page - 1) * perPage)).Limit
            perPage)).length : Int)
      ring
    · have hP : (0:Int) < perPage := by omega
      have key := Int.ediv_add_emod ((table.length : Int) + perPage - 1) perPage
      have hmod := Int.emod_lt_of_pos ((table.length : Int) + perPage - 1) hP
      show (table.length : Int) ≤
        perPage * (((table.length : Int) + perPage - 1) / perPage)
      linarith
    · intro k hk
      have hne : perPage ≠ 0 := by omega
      have h1 : (table.length : Int) + perPage - 1 ≤ perPage - 1 + perPage * k := by
        linarith
      have h2 := Int.ediv_le_ediv (by omega : (0:Int) < perPage) h1
      rw [Int.add_mul_ediv_left (perPage - 1) k hne] at h2
      rw [show (perPage - 1) / perPage = 0 from
        Int.ediv_eq_zero_of_lt (by omega) (by omega)] at h2
      show ((table.length : Int) + perPage - 1) / perPage ≤ k
      omega

/-- Witness for C9: the general arithmetic applied to the 25-row set. -/
theorem c9_witness :
    (NewQueryBuilder.Paginate
        ((List.range 25).map (fun i => [("id", GoValue.VInt (i : Int))]))
        2 10).From = (2 - 1) * 10 + 1 ∧
    ((((List.range 25).map
        (fun i => ([("id", GoValue.VInt (i : Int))] : Row))).length : Int)) ≤
      10 * (NewQueryBuilder.Paginate
        ((List.range 25).map (fun i => [("id", GoValue.VInt (i : Int))]))
        2 10).LastPage :=
  ⟨(c9_paginate_arithmetic NewQueryBuilder
      ((List.range 25).map (fun i => [("id", GoValue.VInt (i : Int))]))
      2 10 (by decide)).2.1,
   (c9_paginate_arithmetic NewQueryBuilder
      ((List.range 25).map (fun i => [("id", GoValue.VInt (i : Int))]))
      2 10 (by decide)).2.2.2.2.2.2.1⟩

/-! ## Placeholder/argument correspondence (claim C1). -/

theorem countQ_append (a b : String) : countQ (a ++ b) = countQ a + countQ b := by
  unfold countQ
  rw [String.data_append, List.countP_append]

theorem countQ_eq_zero (s : String) (h : strNoQ s) : countQ s = 0 := by
  unfold countQ
  rw [List.countP_eq_zero]
  intro c hc
  simp [h c hc]

theorem goUpperChar_ne_qmark (c : Char) (h : c ≠ '?') : goUpperChar c ≠ '?' := by
  unfold goUpperChar
  split
  · next hr =>
      obtain ⟨h1, h2⟩ := hr
      intro hq
      have hv : (Char.ofNat (c.toNat - 32)).toNat = ('?' : Char).toNat := by
        rw [hq]
      interval_cases hn : c.toNat <;> simp_all
  · exact h

theorem strNoQ_goToUpper (s : String) (h : strNoQ s) : strNoQ (goToUpper s) := by
  intro c hc
  have hc' : c ∈ s.data.map goUpperChar := hc
  rw [List.mem_map] at hc'
  obtain ⟨c0, hc0, he⟩ := hc'
  rw [← he]
  exact goUpperChar_ne_qmark c0 (h c0 hc0)

theorem countQ_goToUpper (s : String) (h : strNoQ s) : countQ (goToUpper s) = 0 :=
  countQ_eq_zero _ (strNoQ_goToUpper s h)

theorem countQ_goJoin (sep : String) (hsep : countQ sep = 0) (l : List String) :
    countQ (goJoin sep l) = (l.map countQ).sum := by
  induction l with
  | nil => rfl
  | cons a rest ih =>
      cases rest with
      | nil => simp [goJoin]
      | cons b t =>
          rw [show goJoin sep (a :: b :: t) = a ++ sep ++ goJoin sep (b :: t)
            from rfl]
          rw [countQ_append, countQ_append, hsep, ih]
          simp only [List.map_cons, List.sum_cons]
          omega

theorem countQ_goJoin_zero (sep : String) (hsep : countQ sep = 0)
    (l : List String) (h : ∀ s ∈ l, strNoQ s) : countQ (goJoin sep l) = 0 := by
  rw [countQ_goJoin sep hsep]
  induction l with
  | nil => rfl
  | cons a rest ih =>
      rw [List.map_cons, List.sum_cons,
        countQ_eq_zero a (h a (List.mem_cons_self a rest)),
        ih (fun s hs => h s (List.mem_cons_of_mem a hs))]

theorem countQ_concatStrs (l : List String) :
    countQ (concatStrs l) = (l.map countQ).sum := by
  induction l with
  | nil => rfl
  | cons a rest ih =>
      rw [show concatStrs (a :: rest) = a ++ concatStrs rest from rfl,
        countQ_append, ih, List.map_cons, List.sum_cons]

theorem countQ_placeholders (l : List GoValue) :
    countQ (goJoin ", " (l.map (fun _ => "?"))) = l.length := by
  rw [countQ_goJoin ", " rfl]
  induction l with
  | nil => rfl
  | cons a rest ih =>
      rw [List.map_cons, List.map_cons, List.sum_cons]
      rw [show countQ "?" = 1 from rfl]
      simp only [List.map_cons] at ih
      rw [ih, List.length_cons]
      omega

theorem compileWhere_spec (w : WhereClause) (hwf : WhereWF w)
    (hc : strNoQ w.Column) (ho : strNoQ w.Operator) :
    (compileWhere w).2 = specClauseArgs w ∧
    countQ (compileWhere w).1 = (specClauseArgs w).length := by
  unfold compileWhere specClauseArgs
  by_cases h1 : w.typ = "basic"
  · rw [if_pos h1, if_pos h1]
    refine ⟨rfl, ?_⟩
    show countQ (w.Column ++ " " ++ w.Operator ++ " ?") = 1
    rw [countQ_append, countQ_append, countQ_append,
      countQ_eq_zero _ hc, countQ_eq_zero _ ho]
    rfl
  · rw [if_neg h1, if_neg h1]
    by_cases h2 : w.typ = "in"
    · rw [if_pos h2, if_pos h2]
      refine ⟨rfl, ?_⟩
      show countQ (w.Column ++ _ ++ goJoin ", " (w.Values.map (fun _ => "?"))
          ++ ")") = w.Values.length
      rw [countQ_append, countQ_append, countQ_append,
        countQ_eq_zero _ hc, countQ_placeholders]
      by_cases h3 : w.Operator = "not in"
      · rw [if_pos h3, show countQ " NOT IN (" = 0 from rfl,
          show countQ ")" = 0 from rfl]
        omega
      · rw [if_neg h3, show countQ " IN (" = 0 from rfl,
          show countQ ")" = 0 from rfl]
        omega
    · rw [if_neg h2, if_neg h2]
      by_cases h3 : w.typ = "null"
      · rw [if_pos h3, if_pos h3]
        refine ⟨rfl, ?_⟩
        show countQ (w.Column ++ _) = 0
        rw [countQ_append, countQ_eq_zero _ hc]
        by_cases h4 : w.Operator = "not null" <;> simp [h4] <;> rfl
      · rw [if_neg h3, if_neg h3]
        by_cases h4 : w.typ = "between"
        · rw [if_pos h4, if_pos h4]
          have hlen := hwf h4
          match hv : w.Values, hlen with
          | [mn, mx], _ =>
              refine ⟨rfl, ?_⟩
              show countQ (w.Column ++ " BETWEEN ? AND ?") = 2
              rw [countQ_append, countQ_eq_zero _ hc]
              rfl
        · rw [if_neg h4, if_neg h4]
          exact ⟨rfl, rfl⟩

theorem compileWheresRest_spec (ws : List WhereClause)
    (hwf : ∀ w ∈ ws, WhereWF w) (hnq : ∀ w ∈ ws, WhereNoQ w) :
    (compileWheresRest ws).2 = (ws.map specClauseArgs).flatten ∧
    countQ (compileWheresRest ws).1 = ((ws.map specClauseArgs).flatten).length := by
  induction ws with
  | nil => exact ⟨rfl, rfl⟩
  | cons w rest ih =>
      have hw := hnq w (List.mem_cons_self w rest)
      have hcw := compileWhere_spec w (hwf w (List.mem_cons_self w rest))
        hw.1 hw.2.1
      have hrest := ih (fun x hx => hwf x (List.mem_cons_of_mem w hx))
        (fun x hx => hnq x (List.mem_cons_of_mem w hx))
      constructor
      · show (compileWhere w).2 ++ (compileWheresRest rest).2 = _
        rw [hcw.1, hrest.1, List.map_cons, List.flatten_cons]
      · show countQ (" " ++ goToUpper w.Boolean ++ " " ++ (compileWhere w).1 ++
          (compileWheresRest rest).1) = _
        rw [countQ_append, countQ_append, countQ_append, countQ_append,
          countQ_goToUpper _ hw.2.2, hcw.2, hrest.2,
          List.map_cons, List.flatten_cons, List.length_append,
          show countQ " " = 0 from rfl]
        omega

theorem compileWheres_spec (ws : List WhereClause)
    (hwf : ∀ w ∈ ws, WhereWF w) (hnq : ∀ w ∈ ws, WhereNoQ w) :
    (compileWheres ws).2 = (ws.map specClauseArgs).flatten ∧
    countQ (compileWheres ws).1 = ((ws.map specClauseArgs).flatten).length := by
  cases ws with
  | nil => exact ⟨rfl, rfl⟩
  | cons w rest =>
      have hw := hnq w (List.mem_cons_self w rest)
      have hcw := compileWhere_spec w (hwf w (List.mem_cons_self w rest))
        hw.1 hw.2.1
      have hrest := compileWheresRest_spec rest
        (fun x hx => hwf x (List.mem_cons_of_mem w hx))
        (fun x hx => hnq x (List.mem_cons_of_mem w hx))
      constructor
      · show (compileWhere w).2 ++ (compileWheresRest rest).2 = _
        rw [hcw.1, hrest.1, List.map_cons, List.flatten_cons]
      · show countQ ((compileWhere w).1 ++ (compileWheresRest rest).1) = _
        rw [countQ_append, hcw.2, hrest.2,
          List.map_cons, List.flatten_cons, List.length_append]

theorem compileHavingsRest_spec (hs : List HavingClause)
    (hnq : ∀ h ∈ hs, HavingNoQ h) :
    (compileHavingsRest hs).2 = hs.map HavingClause.Value ∧
    countQ (compileHavingsRest hs).1 = hs.length := by
  induction hs with
  | nil => exact ⟨rfl, rfl⟩
  | cons h rest ih =>
      have hh := hnq h (List.mem_cons_self h rest)
      have hrest := ih (fun x hx => hnq x (List.mem_cons_of_mem h hx))
      constructor
      · show h.Value :: (compileHavingsRest rest).2 = _
        rw [hrest.1, List.map_cons]
      · show countQ (" " ++ goToUpper h.Boolean ++ " " ++ compileHaving h ++
          (compileHavingsRest rest).1) = _
        unfold compileHaving
        simp only [countQ_append]
        rw [countQ_goToUpper _ hh.2.2, hrest.2, countQ_eq_zero _ hh.1,
          countQ_eq_zero _ hh.2.1, List.length_cons,
          show countQ " " = 0 from rfl, show countQ " ?" = 1 from rfl]
        omega

theorem compileHavings_spec (hs : List HavingClause)
    (hnq : ∀ h ∈ hs, HavingNoQ h) :
    (compileHavings hs).2 = hs.map HavingClause.Value ∧
    countQ (compileHavings hs).1 = hs.length := by
  cases hs with
  | nil => exact ⟨rfl, rfl⟩
  | cons h rest =>
      have hh := hnq h (List.mem_cons_self h rest)
      have hrest := compileHavingsRest_spec rest
        (fun x hx => hnq x (List.mem_cons_of_mem h hx))
      constructor
      · show h.Value :: (compileHavingsRest rest).2 = _
        rw [hrest.1, List.map_cons]
      · show countQ (compileHaving h ++ (compileHavingsRest rest).1) = _
        unfold compileHaving
        simp only [countQ_append]
        rw [hrest.2, countQ_eq_zero _ hh.1, countQ_eq_zero _ hh.2.1,
          List.length_cons, show countQ " " = 0 from rfl,
          show countQ " ?" = 1 from rfl]
        omega

theorem countQ_compileJoin (j : JoinClause) (hj : JoinNoQ j) :
    countQ (compileJoin j) = 0 := by
  unfold compileJoin
  by_cases hc : j.typ ≠ "cross"
  · rw [if_pos hc]
    simp only [countQ_append]
    rw [countQ_goToUpper _ hj.2.2.2.2, countQ_eq_zero _ hj.1,
      countQ_eq_zero _ hj.2.1, countQ_eq_zero _ hj.2.2.1,
      countQ_eq_zero _ hj.2.2.2.1]
    rfl
  · rw [if_neg hc]
    simp only [countQ_append]
    rw [countQ_goToUpper _ hj.2.2.2.2, countQ_eq_zero _ hj.1]
    rfl

theorem countQ_compileJoins_list (js : List JoinClause)
    (hj : ∀ j ∈ js, JoinNoQ j) :
    countQ (concatStrs (js.map compileJoin)) = 0 := by
  induction js with
  | nil => rfl
  | cons j rest ih =>
      rw [List.map_cons,
        show concatStrs (compileJoin j :: rest.map compileJoin) =
          compileJoin j ++ concatStrs (rest.map compileJoin) from rfl,
        countQ_append, countQ_compileJoin j (hj j (List.mem_cons_self j rest)),
        ih (fun x hx => hj x (List.mem_cons_of_mem j hx))]

theorem countQ_joinsPart (qb : QueryBuilder) (hj : ∀ j ∈ qb.joins, JoinNoQ j) :
    countQ (joinsPart qb) = 0 :=
  countQ_compileJoins_list qb.joins hj

theorem countQ_selectPart (qb : QueryBuilder)
    (hcols : ∀ c ∈ qb.columns, strNoQ c) : countQ (selectPart qb) = 0 := by
  unfold selectPart
  simp only [countQ_append]
  rw [countQ_goJoin_zero ", " rfl qb.columns hcols]
  by_cases hd : qb.distinct
  · rw [if_pos hd]
    rfl
  · rw [if_neg hd]
    rfl

theorem countQ_fromPart (qb : QueryBuilder) (ht : strNoQ qb.table) :
    countQ (fromPart qb) = 0 := by
  unfold fromPart
  rw [countQ_append, countQ_eq_zero _ ht]
  rfl

theorem countQ_groupPart (qb : QueryBuilder)
    (hg : ∀ g ∈ qb.groups, strNoQ g) : countQ (groupPart qb) = 0 := by
  unfold groupPart
  by_cases h : qb.groups.isEmpty
  · rw [if_pos h]
    rfl
  · rw [if_neg h, countQ_append, countQ_goJoin_zero ", " rfl qb.groups hg]
    rfl

theorem strNoQ_append (a b : String) (ha : strNoQ a) (hb : strNoQ b) :
    strNoQ (a ++ b) := by
  intro c hc
  rw [String.data_append, List.mem_append] at hc
  rcases hc with h | h
  · exact ha c h
  · exact hb c h

theorem countQ_orderPart (qb : QueryBuilder)
    (ho : ∀ o ∈ qb.orders, OrderNoQ o) : countQ (orderPart qb) = 0 := by
  unfold orderPart
  by_cases h : qb.orders.isEmpty
  · rw [if_pos h]
    rfl
  · rw [if_neg h, countQ_append, countQ_goJoin_zero ", " rfl]
    · rfl
    · intro s hs
      rw [List.mem_map] at hs
      obtain ⟨o, hom, he⟩ := hs
      rw [← he]
      exact strNoQ_append _ _
        (strNoQ_append _ _ ((ho o hom).1) (by decide))
        (strNoQ_goToUpper _ ((ho o hom).2))

theorem countQ_wherePart (qb : QueryBuilder) :
    countQ (wherePart qb) = countQ (compileWheres qb.wheres).1 := by
  unfold wherePart
  by_cases h : qb.wheres.isEmpty
  · rw [if_pos h, List.isEmpty_iff.mp h]
    rfl
  · rw [if_neg h, countQ_append, show countQ " WHERE " = 0 from rfl,
      Nat.zero_add]

theorem countQ_havingPart (qb : QueryBuilder) :
    countQ (havingPart qb) = countQ (compileHavings qb.havings).1 := by
  unfold havingPart
  by_cases h : qb.havings.isEmpty
  · rw [if_pos h, List.isEmpty_iff.mp h]
    rfl
  · rw [if_neg h, countQ_append, show countQ " HAVING " = 0 from rfl,
      Nat.zero_add]

theorem limitPart_count (qb : QueryBuilder) :
    countQ (limitPart qb) = (limitArgs qb).length := by
  unfold limitPart limitArgs
  cases qb.limitValue <;> rfl

theorem offsetPart_count (qb : QueryBuilder) :
    countQ (offsetPart qb) = (offsetArgs qb).length := by
  unfold offsetPart offsetArgs
  cases qb.offsetValue <;> rfl

/-- C1: for every clause chain, the SQL `ToSQL` renders contains exactly as
many `?` placeholders as there are entries in the returned argument list
(given marker-free identifiers and builder-well-formed clauses), and the
argument list is exactly the left-to-right concatenation of each clause's
bound arguments — one for a basic predicate, one per value for in/not-in,
none for null/not-null, and exactly the `[min, max]` pair (in that order)
for between — followed by the having, limit and offset arguments; each
clause's fragment carries exactly as many placeholders as its arguments,
so the Nth placeholder corresponds to the Nth argument. -/
theorem c1_toSQL_placeholder_argument_correspondence (qb : QueryBuilder)
    (hnq : QueryBuilderNoQ qb) (hwf : ∀ w ∈ qb.wheres, WhereWF w) :
    countQ (qb.ToSQL).1 = (qb.ToSQL).2.length ∧
    (qb.ToSQL).2 = (qb.wheres.map specClauseArgs).flatten ++
      qb.havings.map HavingClause.Value ++ limitArgs qb ++ offsetArgs qb ∧
    (∀ w ∈ qb.wheres, (compileWhere w).2 = specClauseArgs w ∧
      countQ (compileWhere w).1 = (specClauseArgs w).length) ∧
    (∀ (qb2 : QueryBuilder) (col : String) (mn mx : GoValue),
      (qb2.WhereBetween col mn mx).wheres.map specClauseArgs =
        qb2.wheres.map specClauseArgs ++ [[mn, mx]]) := by
  obtain ⟨ht, hcols, hjoins, hwheres, hgroups, hhavs, hords⟩ := hnq
  have hws := compileWheres_spec qb.wheres hwf hwheres
  have hhs := compileHavings_spec qb.havings hhavs
  refine ⟨?_, ?_, ?_, ?_⟩
  · show countQ (selectPart qb ++ fromPart qb ++ joinsPart qb ++ wherePart qb ++
      groupPart qb ++ havingPart qb ++ orderPart qb ++ limitPart qb ++
      offsetPart qb) =
      ((compileWheres qb.wheres).2 ++ (compileHavings qb.havings).2 ++
        limitArgs qb ++ offsetArgs qb).length
    simp only [countQ_append, List.length_append]
    rw [countQ_selectPart qb hcols, countQ_fromPart qb ht,
      countQ_joinsPart qb hjoins, countQ_groupPart qb hgroups,
      countQ_orderPart qb hords, countQ_wherePart qb, countQ_havingPart qb,
      limitPart_count qb, offsetPart_count qb, hws.2, hhs.2,
      hws.1, hhs.1, List.length_map]
    omega
  · show (compileWheres qb.wheres).2 ++ (compileHavings qb.havings).2 ++
      limitArgs qb ++ offsetArgs qb = _
    rw [hws.1, hhs.1]
  · intro w hw
    exact compileWhere_spec w (hwf w hw) ((hwheres w hw).1) ((hwheres w hw).2.1)
  · intro qb2 col mn mx
    show (qb2.wheres ++ [_]).map specClauseArgs = _
    rw [List.map_append]
    rfl

/-- Witness for C1 at a builder exercising all four predicate kinds, a
join, a group, a having and limit/offset. -/
theorem c1_witness :
    countQ (({
        table := "users",
        wheres := [
          { Column := "status", Operator := "=", Value := GoValue.VStr "active",
            Boolean := "and", typ := "basic", Values := [] },
          { Column := "age", Operator := "", Value := GoValue.VNull,
            Boolean := "and", typ := "in",
            Values := [GoValue.VInt 20, GoValue.VInt 30] },
          { Column := "deleted_at", Operator := "", Value := GoValue.VNull,
            Boolean := "and", typ := "null", Values := [] },
          { Column := "score", Operator := "", Value := GoValue.VNull,
            Boolean := "or", typ := "between",
            Values := [GoValue.VInt 1, GoValue.VInt 9] }],
        orders := [{ Column := "name", Direction := "asc" }],
        joins := [{ Table := "posts", First := "users.id", Operator := "=",
                    Second := "posts.user_id", typ := "inner" }],
        groups := ["status"],
        havings := [{ Column := "cnt", Operator := ">", Value := GoValue.VInt 2,
                      Boolean := "and" }],
        limitValue := some 5, offsetValue := some 3, columns := ["*"],
        distinct := false } : QueryBuilder).ToSQL).1 =
      (({
        table := "users",
        wheres := [
          { Column := "status", Operator := "=", Value := GoValue.VStr "active",
            Boolean := "and", typ := "basic", Values := [] },
          { Column := "age", Operator := "", Value := GoValue.VNull,
            Boolean := "and", typ := "in",
            Values := [GoValue.VInt 20, GoValue.VInt 30] },
          { Column := "deleted_at", Operator := "", Value := GoValue.VNull,
            Boolean := "and", typ := "null", Values := [] },
          { Column := "score", Operator := "", Value := GoValue.VNull,
            Boolean := "or", typ := "between",
            Values := [GoValue.VInt 1, GoValue.VInt 9] }],
        orders := [{ Column := "name", Direction := "asc" }],
        joins := [{ Table := "posts", First := "users.id", Operator := "=",
                    Second := "posts.user_id", typ := "inner" }],
        groups := ["status"],
        havings := [{ Column := "cnt", Operator := ">", Value := GoValue.VInt 2,
                      Boolean := "and" }],
        limitValue := some 5, offsetValue := some 3, columns := ["*"],
        distinct := false } : QueryBuilder).ToSQL).2.length :=
  (c1_toSQL_placeholder_argument_correspondence
    ({
        table := "users",
        wheres := [
          { Column := "status", Operator := "=", Value := GoValue.VStr "active",
            Boolean := "and", typ := "basic", Values := [] },
          { Column := "age", Operator := "", Value := GoValue.VNull,
            Boolean := "and", typ := "in",
            Values := [GoValue.VInt 20, GoValue.VInt 30] },
          { Column := "deleted_at", Operator := "", Value := GoValue.VNull,
            Boolean := "and", typ := "null", Values := [] },
          { Column := "score", Operator := "", Value := GoValue.VNull,
            Boolean := "or", typ := "between",
            Values := [GoValue.VInt 1, GoValue.VInt 9] }],
        orders := [{ Column := "name", Direction := "asc" }],
        joins := [{ Table := "posts", First := "users.id", Operator := "=",
                    Second := "posts.user_id", typ := "inner" }],
        groups := ["status"],
        havings := [{ Column := "cnt", Operator := ">", Value := GoValue.VInt 2,
                      Boolean := "and" }],
        limitValue := some 5, offsetValue := some 3, columns := ["*"],
        distinct := false } : QueryBuilder)
    (by decide) (by decide)).1

end Eloquent
